import Mathlib

/-!
Verification of the LeadGen data-cleaning and CRM-mapping core.

The development shallowly embeds the pipeline of
`src/services/phone_service.py`, `src/services/data_service.py` and
`src/services/bitrix_service.py`, together with the constants of
`src/config/constants.py` and the defaults of `src/config/settings.py`.
Python strings are modelled as lists of characters (`Str`), nullable
values as `Option`, raised exceptions as `Except` errors, and the
mutable round-robin iterator as explicit state passing.
-/

namespace LeadGen

/-- Python strings are modelled as lists of characters. -/
abbrev Str := List Char

/-- Convenience conversion from a Lean string literal to the model type. -/
def strL (s : String) : Str := s.data

/-! ## Constants (`src/config/constants.py`) -/

/-- Constant `PHONE_LENGTH = 11`. -/
def PHONE_LENGTH : Nat := 11

/-- Constant `VALID_PHONE_PREFIXES = ("7", "8")` (each entry a single character). -/
def VALID_PHONE_PREFIXES : List Char := ['7', '8']

/-! ## Settings defaults (`src/config/settings.py`) -/

namespace Settings

/-- Field `default_managers` of `Settings` with its `default_factory` value
`["Менеджер 1", "Менеджер 2"]`. -/
def default_managers : List Str := [strL "Менеджер 1", strL "Менеджер 2"]

/-- Field `bitrix_stage` with its default value. -/
def bitrix_stage : Str := strL "Новая заявка"

/-- Field `bitrix_source` with its default value. -/
def bitrix_source : Str := strL "Холодный звонок"

/-- Field `bitrix_service_type` with its default value. -/
def bitrix_service_type : Str := strL "ГЦК"

end Settings

/-! ## URL cleaner (`src/utils/url_cleaner.py`) -/

/-- Model of `clean_url`: an empty string maps to the empty string, and
otherwise the query string and fragment are dropped — `urlsplit` followed by
`urlunsplit((scheme, netloc, path, "", ""))` is modelled as truncating the
URL at the first `?` or `#` character. -/
def clean_url (url : Str) : Str :=
  if url = [] then []
  else url.takeWhile (fun c => !(c == '?' || c == '#'))

/-! ## PhoneService (`src/services/phone_service.py`) -/

namespace PhoneService

/-- Model of `self._digit_pattern.sub("", raw)` where
`_digit_pattern = re.compile(r"\D")`: every non-digit character is removed. -/
def stripNonDigits (s : Str) : Str := s.filter Char.isDigit

/-- Model of `PhoneService.normalize` (`phone_service.py`, lines 24-62):
strip non-digits; fewer than 10 digits gives `None`; exactly 10 digits get
a prepended `'7'`; the result must be exactly `PHONE_LENGTH` characters and
start with a character of `VALID_PHONE_PREFIXES`, else `None`. -/
def normalize (raw : Option Str) : Option Str :=
  match raw with
  | none => none
  | some r =>
    let digits := stripNonDigits r
    if digits.length < 10 then none
    else
      let digits2 := if digits.length = 10 then '7' :: digits else digits
      if digits2.length ≠ PHONE_LENGTH then none
      else if digits2.headD ' ' ∉ VALID_PHONE_PREFIXES then none
      else some digits2

/-- Model of `PhoneService.normalize_batch`: element-wise `normalize`. -/
def normalize_batch (phones : List (Option Str)) : List (Option Str) :=
  phones.map normalize

/-- The reference algorithm for phone normalization, written from the
spec wording (section 4.1): strip every non-digit character; reject null
input or fewer than 10 digits; prepend `'7'` to exactly 10 digits; accept
exactly the 11-character results whose first character is `'7'` or `'8'`. -/
def normalizeRef (raw : Option Str) : Option Str :=
  match raw with
  | none => none
  | some r =>
    let ds := stripNonDigits r
    let c := if ds.length = 10 then '7' :: ds else ds
    if 10 ≤ ds.length ∧ c.length = 11 ∧ (c.headD ' ' = '7' ∨ c.headD ' ' = '8')
    then some c else none

end PhoneService

/-! ## BitrixService (`src/services/bitrix_service.py`)

The pandas frame is modelled as a list of input rows; absent values
(`NaN`/`None`) are `Option.none` and `fillna("")` is `Option.getD []`.
The `str.replace(pat, "", case=False)` calls run, as in pandas 1.x, the
pattern as a case-insensitive regular expression replacing every
occurrence, so the `.` in `https://t.me/` and `https://vk.com/` matches
any character; `str.replace("@", "", regex=False)` removes every `@`. -/

/-- Case-insensitive single-character match (regex `re.IGNORECASE`). -/
def lowEq (c p : Char) : Bool := c.toLower == p

/-- Match of the 13-character regex `https://t.me/` against the head of a
string: literal characters are compared case-insensitively and the `.`
(position 9) matches any character. -/
def tmePat (l : Str) : Bool :=
  match l with
  | [c0, c1, c2, c3, c4, c5, c6, c7, c8, _, c10, c11, c12] =>
    lowEq c0 'h' && lowEq c1 't' && lowEq c2 't' && lowEq c3 'p' &&
    lowEq c4 's' && c5 == ':' && c6 == '/' && c7 == '/' && lowEq c8 't' &&
    lowEq c10 'm' && lowEq c11 'e' && c12 == '/'
  | _ => false

/-- Fuel-indexed scanner for `subTme`; with fuel at least the length of the
list (the only way it is called) the fuel never runs out, since a match
consumes 13 characters and a non-match one. -/
def subTmeGo : Nat → Str → Str
  | _, [] => []
  | 0, l => l
  | fuel + 1, c :: rest =>
    if tmePat ((c :: rest).take 13) then subTmeGo fuel ((c :: rest).drop 13)
    else c :: subTmeGo fuel rest

/-- Left-to-right removal of every non-overlapping occurrence of the
`https://t.me/` pattern, as `re.sub` with an empty replacement does. -/
def subTme (l : Str) : Str := subTmeGo l.length l

/-- Match of the 15-character regex `https://vk.com/` against the head of a
string: the `.` (position 10) matches any character. -/
def vkPat (l : Str) : Bool :=
  match l with
  | [c0, c1, c2, c3, c4, c5, c6, c7, c8, c9, _, c11, c12, c13, c14] =>
    lowEq c0 'h' && lowEq c1 't' && lowEq c2 't' && lowEq c3 'p' &&
    lowEq c4 's' && c5 == ':' && c6 == '/' && c7 == '/' && lowEq c8 'v' &&
    lowEq c9 'k' && lowEq c11 'c' && lowEq c12 'o' && lowEq c13 'm' &&
    c14 == '/'
  | _ => false

/-- Fuel-indexed scanner for `subVk`. -/
def subVkGo : Nat → Str → Str
  | _, [] => []
  | 0, l => l
  | fuel + 1, c :: rest =>
    if vkPat ((c :: rest).take 15) then subVkGo fuel ((c :: rest).drop 15)
    else c :: subVkGo fuel rest

/-- Left-to-right removal of every non-overlapping occurrence of the
`https://vk.com/` pattern. -/
def subVk (l : Str) : Str := subVkGo l.length l

/-- The telegram column transform of `map_to_bitrix`: replace the
`https://t.me/` pattern, then remove every `@` character. -/
def mapTelegram (t : Str) : Str := (subTme t).filter (fun c => c != '@')

/-- The vkontakte column transform of `map_to_bitrix`. -/
def mapVk (t : Str) : Str := subVk t

/-- One row of the cleaned unified frame as consumed by `map_to_bitrix`
(`df.get(col, ...)` values; a missing value is `none`). -/
structure InputRow where
  category0 : Option Str
  name : Option Str
  phone1 : Option Str
  phone2 : Option Str
  address : Option Str
  companyUrl : Option Str
  telegram : Option Str
  vkontakte : Option Str
  phoneSource : Option Str
deriving DecidableEq, Repr, Inhabited

/-- One output row with the `BITRIX_COLUMNS` fields. -/
structure BitrixRow where
  leadTitle : Str
  workPhone : Str
  mobilePhone : Str
  address : Str
  corporateSite : Str
  telegramContact : Str
  vkContact : Str
  companyName : Str
  comment : Str
  stage : Str
  source : Str
  serviceType : Str
  phoneSource : Str
  owner : Str
deriving DecidableEq, Repr, Inhabited

/-- State of a `BitrixService` object: its manager roster and, modelling
`self._manager_cycle = cycle(self.managers)`, the number of `next` calls
already made on that cycle — the k-th `next` of `cycle(ms)` returns
`ms[k % len ms]`. -/
structure BitrixService where
  managers : List Str
  cursorCalls : Nat
deriving DecidableEq, Repr

/-- Model of `BitrixService.__init__`: `self.managers = managers or
settings.default_managers` — Python `or` falls back to the default roster
both when `managers` is `None` and when it is the empty (falsy) list. -/
def BitrixService.init (managers : Option (List Str)) : BitrixService :=
  { managers :=
      match managers with
      | none => Settings.default_managers
      | some ms => if ms.isEmpty then Settings.default_managers else ms,
    cursorCalls := 0 }

/-- Field derivations of `map_to_bitrix` for one row, with the already
drawn round-robin owner. -/
def mapRow (r : InputRow) (owner : Str) : BitrixRow :=
  { leadTitle := (r.category0.getD []) ++ strL " - " ++ (r.name.getD [])
  , workPhone := r.phone1.getD []
  , mobilePhone := r.phone2.getD []
  , address := r.address.getD []
  , corporateSite := clean_url (r.companyUrl.getD [])
  , telegramContact := mapTelegram (r.telegram.getD [])
  , vkContact := mapVk (r.vkontakte.getD [])
  , companyName := r.name.getD []
  , comment := []
  , stage := Settings.bitrix_stage
  , source := Settings.bitrix_source
  , serviceType := Settings.bitrix_service_type
  , phoneSource := r.phoneSource.getD []
  , owner := owner }

/-- Model of `BitrixService.map_to_bitrix` (`bitrix_service.py`, lines
34-110): an empty frame returns early with no state change; otherwise every
row is mapped and, when the roster is non-empty, the owner column draws one
`next` from the persistent `_manager_cycle` per output row (so the cycle
state advances by the number of rows); with an empty roster the owner
column is the empty string. Returns the rows and the service state after
the call. -/
def map_to_bitrix (svc : BitrixService) (df : List InputRow) :
    List BitrixRow × BitrixService :=
  if df.isEmpty then ([], svc)
  else
    let owners : List Str :=
      if !svc.managers.isEmpty then
        (List.range df.length).map
          (fun i => svc.managers.getD ((svc.cursorCalls + i) % svc.managers.length) [])
      else List.replicate df.length []
    ((df.zip owners).map (fun p => mapRow p.1 p.2),
     if !svc.managers.isEmpty then
       { svc with cursorCalls := svc.cursorCalls + df.length }
     else svc)

/-! ## DataService (`src/services/data_service.py`)

A file on disk is modelled by its decode behaviour: for each encoding the
combined delimiter-detection/`pd.read_csv` attempt either raises (`none`)
or yields a parsed frame.  The fuzzy phone-column discovery of
`_normalize_phones` is modelled as already resolved: raw rows carry their
`phone_1`/`phone_2` cells directly (the claims under study do not concern
the column-name matching). -/

/-- The four text encodings of `_read_file`, as values. -/
inductive Encoding
  | utf8
  | cp1251
  | latin1
  | utf8sig
deriving DecidableEq, Repr

/-- List `encodings = ["utf-8", "cp1251", "latin-1", "utf-8-sig"]` from
`_read_file` (`data_service.py`, line 107), in source order. -/
def encodings : List Encoding := [.utf8, .cp1251, .latin1, .utf8sig]

/-- A raw parsed row: the two phone cells of interest (other columns do not
feed the cleaning logic). -/
structure RawRow where
  phone1 : Option Str
  phone2 : Option Str
deriving DecidableEq, Repr

/-- A parsed frame: its column count and its rows. -/
structure Frame where
  cols : Nat
  rows : List RawRow
deriving DecidableEq, Repr

/-- Decode behaviour of one file: per encoding, the delimiter-detection and
parse attempt either raises (`none`) or returns a frame. -/
abbrev DecodeFn := Encoding → Option Frame

/-- Loop body of `_read_file`: try each encoding in order, return the first
frame obtained; any exception moves on to the next encoding. -/
def readFileGo (dec : DecodeFn) : List Encoding → Except (List Encoding) Frame
  | [] => .error encodings
  | e :: rest =>
    match dec e with
    | some f => .ok f
    | none => readFileGo dec rest

/-- Model of `DataService._read_file` (`data_service.py`, lines 97-142):
tries the encodings in source order and returns the first successful parse;
if every attempt fails it raises `FileProcessingError` carrying
`encodings_tried`, the list of encodings. -/
def readFile (dec : DecodeFn) : Except (List Encoding) Frame :=
  readFileGo dec encodings

/-- A cleaned row: normalized optional phones plus the source-file tag. -/
structure CleanRow where
  phone1 : Option Str
  phone2 : Option Str
  src : Str
deriving DecidableEq, Repr

/-- Errors of `load_and_clean_files`: the empty-input error
(`"Список файлов пуст"`) or the per-file wrapper error naming the path and
carrying the inner ingestion failure detail. -/
inductive FileProcessingError
  | emptyFileList
  | fileFailed (path : Str) (encodingsTried : List Encoding)
deriving DecidableEq, Repr

/-- The `ProcessingStats` schema (`schemas/lead.py`). -/
structure ProcessingStats where
  total_rows : Nat
  removed_empty_phones : Nat
  removed_duplicates : Nat
  final_rows : Nat
  unique_phones : Nat
deriving DecidableEq, Repr

/-- Mask `df["phone_1"].notna() | df["phone_2"].notna()` for one row. -/
def hasPhone (r : CleanRow) : Bool := r.phone1.isSome || r.phone2.isSome

/-- Tagging with the source file name plus `_normalize_phones`: both phone
cells go through `PhoneService.normalize`. -/
def normalizePhones (path : Str) (rows : List RawRow) : List CleanRow :=
  rows.map fun r =>
    { phone1 := PhoneService.normalize r.phone1
    , phone2 := PhoneService.normalize r.phone2
    , src := path }

/-- Model of `DataService._filter_empty_phones`: keep the rows with at
least one non-null phone, count the dropped ones. -/
def filterEmptyPhones (rows : List CleanRow) : List CleanRow × Nat :=
  (rows.filter hasPhone, rows.countP (fun r => !hasPhone r))

/-- Set `{row["phone_1"], row["phone_2"]} - {None}` of `_deduplicate`,
as a duplicate-free list. -/
def rowPhones (r : CleanRow) : List Str :=
  (r.phone1.toList ++ r.phone2.toList).dedup

/-- Model of `DataService._deduplicate` (`data_service.py`, lines 251-271):
walk the rows in order; a row with an empty phone set is dropped and
counted, a row whose phone set meets the accumulated seen set is dropped
and counted, any other row is kept and its phones join the seen set.
Returns (kept rows, removed count, updated seen set). -/
def deduplicate : List CleanRow → List Str → List CleanRow × Nat × List Str
  | [], seen => ([], 0, seen)
  | r :: rs, seen =>
    let phones := rowPhones r
    if phones.isEmpty then
      let res := deduplicate rs seen
      (res.1, res.2.1 + 1, res.2.2)
    else if phones.any (fun p => decide (p ∈ seen)) then
      let res := deduplicate rs seen
      (res.1, res.2.1 + 1, res.2.2)
    else
      let res := deduplicate rs (seen ++ phones)
      (r :: res.1, res.2.1, res.2.2)

/-- Modelled from the claim C10 wording: the deduplication step without its
empty-phone-set drop branch, whose removed count is exactly the number of
rows whose phone set intersects the evolving seen set. -/
def dedupNoEmpty : List CleanRow → List Str → List CleanRow × Nat × List Str
  | [], seen => ([], 0, seen)
  | r :: rs, seen =>
    let phones := rowPhones r
    if phones.any (fun p => decide (p ∈ seen)) then
      let res := dedupNoEmpty rs seen
      (res.1, res.2.1 + 1, res.2.2)
    else
      let res := dedupNoEmpty rs (seen ++ phones)
      (r :: res.1, res.2.1, res.2.2)

/-- Accumulated result of the per-file loop of `load_and_clean_files`:
kept rows so far, the counters, and the cross-file seen set. -/
structure GoResult where
  rows : List CleanRow
  total : Nat
  removedEmpty : Nat
  removedDup : Nat
  seen : List Str
deriving DecidableEq, Repr

/-- The per-file loop of `load_and_clean_files`: read, tag, normalize,
filter, deduplicate against the shared seen set; the first file whose
ingestion raises aborts the whole run with an error naming its path. -/
def pipelineGo : List (Str × DecodeFn) → List Str →
    Except FileProcessingError GoResult
  | [], seen => .ok ⟨[], 0, 0, 0, seen⟩
  | (path, dec) :: rest, seen =>
    match readFile dec with
    | .error e => .error (.fileFailed path e)
    | .ok frame =>
      let cleaned := normalizePhones path frame.rows
      let filtered := (filterEmptyPhones cleaned).1
      let nEmpty := (filterEmptyPhones cleaned).2
      let dd := deduplicate filtered seen
      match pipelineGo rest dd.2.2 with
      | .error err => .error err
      | .ok res =>
        .ok ⟨dd.1 ++ res.rows, frame.rows.length + res.total,
             nEmpty + res.removedEmpty, dd.2.1 + res.removedDup, res.seen⟩

/-- Model of `DataService.load_and_clean_files` (`data_service.py`, lines
29-95): an empty path list raises immediately, before touching any file;
otherwise the files are processed in order with the shared seen set, the
kept rows are concatenated in file-then-row order and the statistics are
assembled from the counters. -/
def load_and_clean_files (files : List (Str × DecodeFn)) :
    Except FileProcessingError (List CleanRow × ProcessingStats) :=
  if files.isEmpty then .error .emptyFileList
  else
    match pipelineGo files [] with
    | .error e => .error e
    | .ok res =>
      .ok (res.rows,
        { total_rows := res.total
        , removed_empty_phones := res.removedEmpty
        , removed_duplicates := res.removedDup
        , final_rows := res.rows.length
        , unique_phones := res.seen.length })

/-- Pairwise relation of claim C2: two records share no canonical phone. -/
def disjRel (a b : CleanRow) : Prop := ∀ p ∈ rowPhones a, p ∉ rowPhones b

/-! ### Concrete files for counterexamples and witnesses -/

/-- A UTF-8 file carrying a byte-order mark: every encoding decodes it
without failure, but to different frames — plain UTF-8 keeps the BOM as a
leading `﻿` character, UTF-8-with-BOM strips it, the one-byte
encodings turn it into mojibake. -/
def bomFileDecode : DecodeFn
  | .utf8 => some ⟨2, [⟨some (strL "﻿89991234567"), none⟩]⟩
  | .cp1251 => some ⟨2, [⟨some (strL "п»ї89991234567"), none⟩]⟩
  | .latin1 => some ⟨2, [⟨some (strL "ï»¿89991234567"), none⟩]⟩
  | .utf8sig => some ⟨2, [⟨some (strL "89991234567"), none⟩]⟩

/-- A file every encoding parses into a single column. -/
def oneColDecode : DecodeFn := fun _ => some ⟨1, [⟨none, none⟩]⟩

/-- A well-formed two-row file (parses under UTF-8 only). -/
def demoFileA : DecodeFn
  | .utf8 => some ⟨3,
      [⟨some (strL "89991234567"), none⟩,
       ⟨some (strL "+7 999 123-45-68"), some (strL "123")⟩,
       ⟨none, none⟩]⟩
  | _ => none

/-- A second file whose only row repeats the first file's first phone. -/
def demoFileB : DecodeFn
  | .utf8 => some ⟨2, [⟨some (strL "8 (999) 123-45-67"), none⟩]⟩
  | _ => none

/-- A file no encoding can parse. -/
def brokenDecode : DecodeFn := fun _ => none

/-- A concrete two-file batch for evaluating the pipeline. -/
def demoFiles : List (Str × DecodeFn) :=
  [(strL "a.tsv", demoFileA), (strL "b.tsv", demoFileB)]

/-- The unified table the pipeline produces on `demoFiles`. -/
def demoRows : List CleanRow :=
  [⟨some (strL "89991234567"), none, strL "a.tsv"⟩,
   ⟨some (strL "79991234568"), none, strL "a.tsv"⟩]

/-- The statistics the pipeline produces on `demoFiles`. -/
def demoStats : ProcessingStats := ⟨4, 1, 1, 2, 2⟩

/-- A concrete unified-table row used for evaluating the mapper. -/
def sampleRow : InputRow :=
  { category0 := some (strL "Кафе"), name := some (strL "Тест")
  , phone1 := some (strL "79991234567"), phone2 := none
  , address := none, companyUrl := none
  , telegram := none, vkontakte := none
  , phoneSource := some (strL "a.tsv") }

end LeadGen

namespace LeadGen

/-- The source `normalize` agrees with the spec reference algorithm
everywhere (helper for claim C8). -/
theorem normalize_eq_normalizeRef (raw : Option Str) :
    PhoneService.normalize raw = PhoneService.normalizeRef raw := by
  cases raw with
  | none => rfl
  | some r =>
    unfold PhoneService.normalize PhoneService.normalizeRef
    simp only []
    set ds := PhoneService.stripNonDigits r with hds
    by_cases h1 : ds.length < 10
    · simp [h1, show ¬ (10:Nat) ≤ ds.length by omega]
    · by_cases h2 : ds.length = 10
      · simp [h1, h2, PHONE_LENGTH, VALID_PHONE_PREFIXES]
      · by_cases h4 : ds.length = 11
        · simp only [if_neg h1, if_neg h2, if_neg (by omega : ¬ ds.length < 10),
            PHONE_LENGTH, h4, ne_eq, not_true_eq_false, if_false,
            show (10:Nat) ≤ 11 by omega, true_and, and_true, not_false_eq_true,
            if_true]
          by_cases h5 : ds.head?.getD ' ' ∈ VALID_PHONE_PREFIXES
          · have hor : ds.head?.getD ' ' = '7' ∨ ds.head?.getD ' ' = '8' := by
              simpa [VALID_PHONE_PREFIXES] using h5
            simp [h5, hor]
          · have hor : ¬ (ds.head?.getD ' ' = '7' ∨ ds.head?.getD ' ' = '8') := by
              simpa [VALID_PHONE_PREFIXES] using h5
            simp [h5, hor]
        · simp [if_neg h1, if_neg h2, PHONE_LENGTH, h4, le_of_not_lt h1]

/-- Claim C8: `normalize` equals the reference algorithm; in particular a
10-digit all-digit string gets `'7'` prepended, and an 11-digit string with
a leading `'8'` is returned unchanged (no forced rewrite of 8 to 7). -/
theorem C8_normalize_matches_reference :
    (∀ raw : Option Str, PhoneService.normalize raw = PhoneService.normalizeRef raw) ∧
    (∀ d : Str, d.length = 10 → (∀ c ∈ d, c.isDigit) →
      PhoneService.normalize (some d) = some ('7' :: d)) ∧
    (∀ d : Str, d.length = 11 → d.headD ' ' = '8' → (∀ c ∈ d, c.isDigit) →
      PhoneService.normalize (some d) = some d) := by
  refine ⟨normalize_eq_normalizeRef, ?_, ?_⟩
  · intro d hlen hdig
    have hfilter : PhoneService.stripNonDigits d = d := List.filter_eq_self.mpr hdig
    unfold PhoneService.normalize
    simp [hfilter, hlen, PHONE_LENGTH, VALID_PHONE_PREFIXES]
  · intro d hlen hhead hdig
    have hfilter : PhoneService.stripNonDigits d = d := List.filter_eq_self.mpr hdig
    rw [List.headD_eq_head?] at hhead
    unfold PhoneService.normalize
    simp [hfilter, hlen, PHONE_LENGTH, VALID_PHONE_PREFIXES, hhead]

/-- Witness for claim C8 at concrete inputs from the spec scenarios:
`"89991234567"` stays unchanged and `"9991234569"` gains a leading 7. -/
theorem C8_normalize_matches_reference_witness :
    PhoneService.normalize (some (strL "9991234569")) = some (strL "79991234569") ∧
    PhoneService.normalize (some (strL "89991234567")) = some (strL "89991234567") := by
  constructor
  · exact C8_normalize_matches_reference.2.1 (strL "9991234569")
      (by decide) (by decide)
  · exact C8_normalize_matches_reference.2.2 (strL "89991234567")
      (by decide) (by decide) (by decide)

/-! ## Round-robin owner assignment (claims C1 and C7) -/

/-- Owner column produced by a non-empty roster: the k-th drawn owner is
`managers[(cursorCalls + k) % M]` (helper for C1). -/
theorem owner_map_eq (svc : BitrixService) (df : List InputRow)
    (h : df ≠ []) (hm : svc.managers ≠ []) :
    ((map_to_bitrix svc df).1).map (fun b => b.owner) =
      (List.range df.length).map
        (fun i => svc.managers.getD ((svc.cursorCalls + i) % svc.managers.length) []) := by
  have hdf : df.isEmpty = false := by simp [List.isEmpty_iff, h]
  have hm' : svc.managers.isEmpty = false := by simp [List.isEmpty_iff, hm]
  unfold map_to_bitrix
  simp only [hdf, hm', Bool.not_false, if_true, Bool.false_eq_true, if_false]
  rw [List.map_map]
  have hcomp : ((fun b : BitrixRow => b.owner) ∘ fun p : InputRow × Str => mapRow p.1 p.2)
      = Prod.snd := by
    funext p; rfl
  rw [hcomp, List.map_snd_zip]
  simp

/-- Owner column produced by an empty effective roster: always the empty
string (helper for C7). -/
theorem owner_map_empty (c : Nat) (df : List InputRow) :
    ((map_to_bitrix ⟨[], c⟩ df).1).map (fun b => b.owner) =
      List.replicate df.length [] := by
  cases df with
  | nil => simp [map_to_bitrix]
  | cons a l =>
    unfold map_to_bitrix
    simp only [List.isEmpty_cons, List.isEmpty_nil, Bool.not_true,
      Bool.false_eq_true, if_false]
    rw [List.map_map]
    have hcomp : ((fun b : BitrixRow => b.owner) ∘ fun p : InputRow × Str => mapRow p.1 p.2)
        = Prod.snd := by
      funext p; rfl
    rw [hcomp, List.map_snd_zip]
    simp

/-- Counterexample to claim C1: on a mapper built with roster
`["A", "B"]`, two successive `map` calls of one row each assign `"A"` and
then `"B"` — the round-robin cursor persists across `map` calls instead of
restarting at position 0, so the second call's first row does not get
`managers[0]`. -/
theorem C1_cursor_restarts_cex :
    ((map_to_bitrix
        (map_to_bitrix (BitrixService.init (some [strL "A", strL "B"]))
          [sampleRow]).2
        [sampleRow]).1).map (fun b => b.owner) = [strL "B"] ∧
    strL "B" ≠ strL "A" := by
  decide

/-- Claim C1 amended: the owner of output row `i` of a `map` call equals
`managers[(c + i) mod M]`, where `c` is the number of rows assigned in all
previous `map` calls on the same mapper (the cycle persists; a fresh mapper
has `c = 0`, so only the first call satisfies `owner[i] = managers[i mod M]`),
and the call leaves the cursor advanced by the number of rows mapped. -/
theorem C1_round_robin_amended (mgrs : List Str) (c : Nat)
    (df : List InputRow) (hm : mgrs ≠ []) :
    (((map_to_bitrix ⟨mgrs, c⟩ df).1).map (fun b => b.owner) =
      (List.range df.length).map (fun i => mgrs.getD ((c + i) % mgrs.length) [])) ∧
    (∀ i, i < df.length →
      (((map_to_bitrix ⟨mgrs, c⟩ df).1).map (fun b => b.owner)).getD i [] =
        mgrs.getD ((c + i) % mgrs.length) []) ∧
    (df ≠ [] → (map_to_bitrix ⟨mgrs, c⟩ df).2 = ⟨mgrs, c + df.length⟩) := by
  refine ⟨?_, ?_, ?_⟩
  · cases df with
    | nil => simp [map_to_bitrix]
    | cons a l => exact owner_map_eq ⟨mgrs, c⟩ (a :: l) (by simp) hm
  · intro i hi
    cases df with
    | nil => simp at hi
    | cons a l =>
      rw [owner_map_eq ⟨mgrs, c⟩ (a :: l) (by simp) hm]
      rw [List.getD_eq_getElem _ _ (by simpa using hi)]
      simp
  · intro h
    have hdf : df.isEmpty = false := by simp [List.isEmpty_iff, h]
    have hm' : mgrs.isEmpty = false := by simp [List.isEmpty_iff, hm]
    unfold map_to_bitrix
    simp [hdf, hm']

/-- Witness for C1 amended: a mapper whose cycle has already served one row
(`c = 1`) starts its next call at `managers[1]`. -/
theorem C1_round_robin_amended_witness :
    ((map_to_bitrix ⟨[strL "A", strL "B"], 1⟩ [sampleRow]).1).map (fun b => b.owner) =
      (List.range 1).map
        (fun i => [strL "A", strL "B"].getD ((1 + i) % [strL "A", strL "B"].length) []) :=
  (C1_round_robin_amended [strL "A", strL "B"] 1 [sampleRow] (by decide)).1

/-- Counterexample to claim C7: passing the empty list as roster does not
produce empty owners — Python's `managers or settings.default_managers`
treats the empty list as falsy, so the default roster is used and the first
row is owned by the first default manager, not by the empty string. -/
theorem C7_empty_roster_cex :
    ((map_to_bitrix (BitrixService.init (some [])) [sampleRow]).1).map
        (fun b => b.owner) = [strL "Менеджер 1"] ∧
    strL "Менеджер 1" ≠ ([] : Str) := by
  decide

/-- Claim C7 amended: only an empty *effective* roster (the service's
`managers` attribute after the `managers or settings.default_managers`
fallback) yields the empty string as every row's owner, with no error;
passing `[]` (or `None`) to the constructor instead falls back to the
default roster. -/
theorem C7_empty_roster_amended :
    (∀ (c : Nat) (df : List InputRow),
      ((map_to_bitrix ⟨[], c⟩ df).1).map (fun b => b.owner) =
        List.replicate df.length []) ∧
    BitrixService.init (some []) = ⟨Settings.default_managers, 0⟩ ∧
    BitrixService.init none = ⟨Settings.default_managers, 0⟩ :=
  ⟨owner_map_empty, rfl, rfl⟩

/-! ## Telegram contact mapping (claim C6) -/

/-- Helper for C6: a string on which the `https://t.me/` pattern matches at
no position is returned unchanged by the scanner. -/
theorem subTmeGo_eq_self (fuel : Nat) (l : Str) (hf : l.length ≤ fuel)
    (hnm : ∀ i, i < l.length → tmePat ((l.drop i).take 13) = false) :
    subTmeGo fuel l = l := by
  induction fuel generalizing l with
  | zero =>
    cases l with
    | nil => rfl
    | cons c r => simp at hf
  | succ n ih =>
    cases l with
    | nil => rfl
    | cons c r =>
      have h0 : tmePat (c :: r.take 12) = false := by
        simpa using hnm 0 (by simp)
      unfold subTmeGo
      rw [if_neg (by simp [h0])]
      congr 1
      refine ih r (by simpa using Nat.lt_succ_iff.mp (Nat.lt_succ_of_le hf)) ?_
      intro i hi
      simpa using hnm (i + 1) (by simpa using Nat.succ_lt_succ hi)

/-- Claim C6 amended: the mapped telegram contact is the input with every
case-insensitive occurrence of the 13-character pattern `https://t.me/`
(where `.` matches any character) removed and then every `@` character
removed, wherever it appears — an `@` in the middle of the value is removed
too, not preserved; values containing neither pattern nor `@` pass through
unchanged. -/
theorem C6_telegram_amended :
    (∀ (svc : BitrixService) (r : InputRow),
      ((map_to_bitrix svc [r]).1).map (fun b => b.telegramContact) =
        [mapTelegram (r.telegram.getD [])]) ∧
    (∀ t : Str, '@' ∉ mapTelegram t) ∧
    (∀ t : Str, (∀ i, i < t.length → tmePat ((t.drop i).take 13) = false) →
      '@' ∉ t → mapTelegram t = t) ∧
    mapTelegram (strL "https://t.me/testuser") = strL "testuser" := by
  refine ⟨?_, ?_, ?_, by decide⟩
  · intro svc r
    cases hm : svc.managers.isEmpty <;>
      simp [map_to_bitrix, mapRow, hm, List.range_succ]
  · intro t
    simp [mapTelegram, List.mem_filter]
  · intro t hnm hat
    unfold mapTelegram subTme
    rw [subTmeGo_eq_self t.length t le_rfl hnm]
    refine List.filter_eq_self.mpr ?_
    intro c hc
    simp only [bne_iff_ne, ne_eq, decide_eq_true_eq]
    intro hceq
    exact hat (hceq ▸ hc)

/-- Witness for C6 amended: a plain handle without pattern or `@` passes
through unchanged. -/
theorem C6_telegram_amended_witness :
    mapTelegram (strL "user") = strL "user" :=
  C6_telegram_amended.2.2.1 (strL "user") (by decide) (by decide)

/-- Counterexample to claim C6: a mid-string `@` is not preserved — the
mapper removes every `@`, so telegram value `"user@mid"` maps to
`"usermid"`, not `"user@mid"`. -/
theorem C6_telegram_cex :
    ((map_to_bitrix (BitrixService.init none)
        [{ sampleRow with telegram := some (strL "user@mid") }]).1).map
        (fun b => b.telegramContact) = [strL "usermid"] ∧
    strL "usermid" ≠ strL "user@mid" := by
  decide

/-! ## Cleaning pipeline: counting and deduplication invariants -/

/-- Row conservation of the empty-phone filter: kept plus removed equals
the input row count. -/
theorem filterEmptyPhones_counts (rows : List CleanRow) :
    (filterEmptyPhones rows).1.length + (filterEmptyPhones rows).2 = rows.length := by
  induction rows with
  | nil => rfl
  | cons r rs ih =>
    by_cases hr : hasPhone r = true <;>
      simp [filterEmptyPhones, List.filter_cons, List.countP_cons, hr] at ih ⊢ <;>
      omega

/-- A row passing the empty-phone mask has a non-empty phone set. -/
theorem rowPhones_ne_nil (r : CleanRow) (h : hasPhone r = true) :
    rowPhones r ≠ [] := by
  intro hnil
  rw [rowPhones, List.dedup_eq_nil, List.append_eq_nil] at hnil
  rcases hr1 : r.phone1 with _ | p1 <;> rcases hr2 : r.phone2 with _ | p2 <;>
    simp [hasPhone, hr1, hr2] at h hnil

/-- Combined behaviour of `_deduplicate`: row conservation, monotonicity of
the seen set, every kept row has a non-empty phone set drawn from phones
unseen before this call, and the kept rows are pairwise phone-disjoint. -/
theorem deduplicate_spec (rows : List CleanRow) : ∀ seen : List Str,
    ((deduplicate rows seen).1.length + (deduplicate rows seen).2.1 = rows.length) ∧
    (∀ p ∈ seen, p ∈ (deduplicate rows seen).2.2) ∧
    (∀ r ∈ (deduplicate rows seen).1, rowPhones r ≠ [] ∧
      ∀ p ∈ rowPhones r, p ∈ (deduplicate rows seen).2.2 ∧ p ∉ seen) ∧
    List.Pairwise disjRel (deduplicate rows seen).1 := by
  induction rows with
  | nil => intro seen; simp [deduplicate]
  | cons r rs ih =>
    intro seen
    by_cases hemp : (rowPhones r).isEmpty = true
    · have hd : deduplicate (r :: rs) seen =
          ((deduplicate rs seen).1, (deduplicate rs seen).2.1 + 1,
           (deduplicate rs seen).2.2) := by
        simp only [deduplicate, hemp, if_true]
      obtain ⟨c1, c2, c3, c4⟩ := ih seen
      rw [hd]
      exact ⟨by simpa using by omega, c2, c3, c4⟩
    · by_cases hint : (rowPhones r).any (fun p => decide (p ∈ seen)) = true
      · have hd : deduplicate (r :: rs) seen =
            ((deduplicate rs seen).1, (deduplicate rs seen).2.1 + 1,
             (deduplicate rs seen).2.2) := by
          simp only [deduplicate, hemp, Bool.false_eq_true, if_false, hint, if_true]
        obtain ⟨c1, c2, c3, c4⟩ := ih seen
        rw [hd]
        exact ⟨by simpa using by omega, c2, c3, c4⟩
      · have hd : deduplicate (r :: rs) seen =
            ((r :: (deduplicate rs (seen ++ rowPhones r)).1),
             (deduplicate rs (seen ++ rowPhones r)).2.1,
             (deduplicate rs (seen ++ rowPhones r)).2.2) := by
          simp only [deduplicate, hemp, Bool.false_eq_true, if_false, hint]
        obtain ⟨c1, c2, c3, c4⟩ := ih (seen ++ rowPhones r)
        have hnotin : ∀ p ∈ rowPhones r, p ∉ seen := by
          intro p hp hmem
          exact hint (List.any_eq_true.mpr ⟨p, hp, by simpa using hmem⟩)
        have hne : rowPhones r ≠ [] := by
          intro hnil; rw [hnil] at hemp; exact hemp rfl
        rw [hd]
        refine ⟨by simpa using by omega, ?_, ?_, ?_⟩
        · intro p hp
          exact c2 p (List.mem_append_left _ hp)
        · intro x hx
          rcases List.mem_cons.mp hx with hx | hx
          · subst hx
            refine ⟨hne, fun p hp => ⟨c2 p (List.mem_append_right _ hp), hnotin p hp⟩⟩
          · obtain ⟨hxne, hxp⟩ := c3 x hx
            refine ⟨hxne, fun p hp => ⟨(hxp p hp).1, ?_⟩⟩
            intro hmem
            exact (hxp p hp).2 (List.mem_append_left _ hmem)
        · refine List.pairwise_cons.mpr ⟨?_, c4⟩
          intro b hb p hp hpb
          exact ((c3 b hb).2 p hpb).2 (List.mem_append_right _ hp)

/-- Combined behaviour of the per-file loop: the counting identity behind
C3 and the cross-file phone-disjointness invariant behind C2. -/
theorem pipelineGo_spec (files : List (Str × DecodeFn)) :
    ∀ (seen : List Str) (res : GoResult), pipelineGo files seen = .ok res →
    (res.total = res.rows.length + res.removedEmpty + res.removedDup) ∧
    (∀ p ∈ seen, p ∈ res.seen) ∧
    (∀ r ∈ res.rows, rowPhones r ≠ [] ∧
      ∀ p ∈ rowPhones r, p ∈ res.seen ∧ p ∉ seen) ∧
    List.Pairwise disjRel res.rows := by
  induction files with
  | nil =>
    intro seen res h
    simp only [pipelineGo, Except.ok.injEq] at h
    subst h
    simp
  | cons fd rest ih =>
    obtain ⟨path, dec⟩ := fd
    intro seen res h
    simp only [pipelineGo] at h
    cases hrf : readFile dec with
    | error e => rw [hrf] at h; simp at h
    | ok frame =>
      rw [hrf] at h
      simp only [] at h
      set filtered := (filterEmptyPhones (normalizePhones path frame.rows)).1 with hfilt
      cases hgo : pipelineGo rest (deduplicate filtered seen).2.2 with
      | error err => rw [hgo] at h; simp at h
      | ok res2 =>
        rw [hgo] at h
        simp only [Except.ok.injEq] at h
        subst h
        obtain ⟨g1, g2, g3, g4⟩ := ih _ res2 hgo
        obtain ⟨d1, d2, d3, d4⟩ := deduplicate_spec filtered seen
        have hfc := filterEmptyPhones_counts (normalizePhones path frame.rows)
        rw [← hfilt] at hfc
        have hlen : (normalizePhones path frame.rows).length = frame.rows.length := by
          simp [normalizePhones]
        refine ⟨?_, ?_, ?_, ?_⟩
        · simp only [List.length_append]
          omega
        · intro p hp
          exact g2 p (d2 p hp)
        · intro r hr
          rcases List.mem_append.mp hr with hr | hr
          · obtain ⟨hrne, hrp⟩ := d3 r hr
            refine ⟨hrne, fun p hp => ⟨g2 p (hrp p hp).1, (hrp p hp).2⟩⟩
          · obtain ⟨hrne, hrp⟩ := g3 r hr
            refine ⟨hrne, fun p hp => ⟨(hrp p hp).1, ?_⟩⟩
            intro hmem
            exact (hrp p hp).2 (d2 p hmem)
        · refine List.pairwise_append.mpr ⟨d4, g4, ?_⟩
          intro a ha b hb p hp hpb
          exact ((g3 b hb).2 p hpb).2 (((d3 a ha).2 p hp).1)

/-- If every file before it ingests and one file fails to ingest, the loop
aborts with an error naming that file (helper for C9). -/
theorem pipelineGo_error (path : Str) (dec : DecodeFn)
    (pre : List (Str × DecodeFn)) :
    ∀ (rest : List (Str × DecodeFn)) (seen : List Str),
    (∀ pd ∈ pre, ∃ f, readFile pd.2 = .ok f) →
    readFile dec = .error encodings →
    pipelineGo (pre ++ (path, dec) :: rest) seen =
      .error (.fileFailed path encodings) := by
  induction pre with
  | nil =>
    intro rest seen hpre hfail
    simp only [List.nil_append, pipelineGo]
    rw [hfail]
  | cons pd pre' ih =>
    obtain ⟨q, d⟩ := pd
    intro rest seen hpre hfail
    obtain ⟨f, hf⟩ := hpre (q, d) (by simp)
    simp only [List.cons_append, pipelineGo]
    rw [hf]
    simp only []
    rw [List.append_eq]
    rw [ih rest _ (fun x hx => hpre x (by simp [hx])) hfail]

/-! ## Claims about the cleaning pipeline -/

/-- Claim C2: in any unified table produced by a successful run of the
cleaning pipeline, no two records share any canonical phone value (the
dedup key being the set of each record's non-null phones, accumulated
across the whole batch in file-then-row order), and every kept record has
a non-empty phone set. -/
theorem C2_no_shared_phones (files : List (Str × DecodeFn))
    (rows : List CleanRow) (stats : ProcessingStats)
    (h : load_and_clean_files files = .ok (rows, stats)) :
    List.Pairwise disjRel rows ∧ ∀ r ∈ rows, rowPhones r ≠ [] := by
  unfold load_and_clean_files at h
  by_cases he : files.isEmpty = true
  · simp [he] at h
  · simp only [he, Bool.false_eq_true, if_false] at h
    cases hgo : pipelineGo files [] with
    | error e => rw [hgo] at h; simp at h
    | ok res =>
      rw [hgo] at h
      simp only [Except.ok.injEq, Prod.mk.injEq] at h
      obtain ⟨hrows, hstats⟩ := h
      subst hrows
      obtain ⟨g1, g2, g3, g4⟩ := pipelineGo_spec files [] res hgo
      exact ⟨g4, fun r hr => (g3 r hr).1⟩

/-- Witness for claim C2 on the concrete two-file batch. -/
theorem C2_no_shared_phones_witness :
    List.Pairwise disjRel demoRows ∧ ∀ r ∈ demoRows, rowPhones r ≠ [] :=
  C2_no_shared_phones demoFiles demoRows demoStats rfl

/-- Claim C3: for every successful run, the raw row total equals kept rows
plus duplicate removals plus empty-phone removals. -/
theorem C3_stats_identity (files : List (Str × DecodeFn))
    (rows : List CleanRow) (stats : ProcessingStats)
    (h : load_and_clean_files files = .ok (rows, stats)) :
    stats.total_rows =
      stats.final_rows + stats.removed_duplicates + stats.removed_empty_phones := by
  unfold load_and_clean_files at h
  by_cases he : files.isEmpty = true
  · simp [he] at h
  · simp only [he, Bool.false_eq_true, if_false] at h
    cases hgo : pipelineGo files [] with
    | error e => rw [hgo] at h; simp at h
    | ok res =>
      rw [hgo] at h
      simp only [Except.ok.injEq, Prod.mk.injEq] at h
      obtain ⟨hrows, hstats⟩ := h
      subst hrows
      subst hstats
      obtain ⟨g1, _, _, _⟩ := pipelineGo_spec files [] res hgo
      simp only []
      omega

/-- Witness for claim C3 on the concrete two-file batch (4 raw rows =
2 kept + 1 duplicate + 1 empty-phone row). -/
theorem C3_stats_identity_witness :
    demoStats.total_rows =
      demoStats.final_rows + demoStats.removed_duplicates +
        demoStats.removed_empty_phones :=
  C3_stats_identity demoFiles demoRows demoStats rfl

/-- Counterexample to claim C4: the source tries the encodings in the
order UTF-8, Windows-1251, Latin-1, UTF-8-with-BOM — a UTF-8-with-BOM file
decodes without failure under plain UTF-8, so it is read under plain UTF-8
(keeping the BOM character in the data), not under UTF-8-with-BOM as the
claimed priority order would demand. -/
theorem C4_encoding_order_cex :
    readFile bomFileDecode = .ok ⟨2, [⟨some (strL "\uFEFF89991234567"), none⟩]⟩ ∧
    bomFileDecode .utf8sig = some ⟨2, [⟨some (strL "89991234567"), none⟩]⟩ ∧
    (⟨2, [⟨some (strL "\uFEFF89991234567"), none⟩]⟩ : Frame) ≠
      ⟨2, [⟨some (strL "89991234567"), none⟩]⟩ :=
  ⟨rfl, rfl, by decide⟩

/-- Claim C4 amended: the ingestor tries the encodings in the priority
order UTF-8, Windows-1251, Latin-1, UTF-8-with-BOM and uses the first that
parses without failure; since a UTF-8-with-BOM file decodes under plain
UTF-8, it is read under plain UTF-8 (the BOM is kept as data), and the
UTF-8-with-BOM attempt is reached only after the other three fail. -/
theorem C4_encoding_order_amended :
    (∀ (dec : DecodeFn) (f : Frame), dec .utf8 = some f →
      readFile dec = .ok f) ∧
    (∀ (dec : DecodeFn) (f : Frame), dec .utf8 = none → dec .cp1251 = some f →
      readFile dec = .ok f) ∧
    (∀ (dec : DecodeFn) (f : Frame), dec .utf8 = none → dec .cp1251 = none →
      dec .latin1 = some f → readFile dec = .ok f) ∧
    (∀ (dec : DecodeFn) (f : Frame), dec .utf8 = none → dec .cp1251 = none →
      dec .latin1 = none → dec .utf8sig = some f → readFile dec = .ok f) := by
  refine ⟨?_, ?_, ?_, ?_⟩ <;> intro dec f <;> intros <;>
    simp_all [readFile, readFileGo, encodings]

/-- Witness for claim C4 amended: the BOM file is read under plain UTF-8. -/
theorem C4_encoding_order_amended_witness :
    readFile bomFileDecode = .ok ⟨2, [⟨some (strL "\uFEFF89991234567"), none⟩]⟩ :=
  C4_encoding_order_amended.1 bomFileDecode _ rfl

/-- Counterexample to claim C5: a file every attempt parses into a single
column is ingested successfully — the source never checks the parsed
column count, so a single-column parse is not a failure. -/
theorem C5_single_column_cex :
    readFile oneColDecode = .ok ⟨1, [⟨none, none⟩]⟩ ∧
    (⟨1, [⟨none, none⟩]⟩ : Frame).cols = 1 ∧
    ∀ tried, readFile oneColDecode ≠ .error tried := by
  refine ⟨rfl, rfl, fun tried h => Except.noConfusion h⟩

/-- Claim C5 amended: ingestion of a file fails — with a file-processing
error carrying the list of encodings attempted — if and only if every
(encoding, delimiter) attempt raises during decoding or parsing; the
number of parsed columns is never checked, so a parse yielding a single
column counts as a successful ingestion. -/
theorem C5_failure_iff_amended (dec : DecodeFn) :
    (readFile dec = .error encodings ↔
      dec .utf8 = none ∧ dec .cp1251 = none ∧ dec .latin1 = none ∧
        dec .utf8sig = none) ∧
    (∀ tried, readFile dec = .error tried → tried = encodings) := by
  cases h1 : dec .utf8 <;> cases h2 : dec .cp1251 <;>
    cases h3 : dec .latin1 <;> cases h4 : dec .utf8sig <;>
    simp [readFile, readFileGo, encodings, h1, h2, h3, h4]

/-- Witness for claim C5 amended: the unparseable file fails with the full
encodings list. -/
theorem C5_failure_iff_amended_witness :
    readFile brokenDecode = .error encodings :=
  (C5_failure_iff_amended brokenDecode).1.mpr ⟨rfl, rfl, rfl, rfl⟩

/-- Claim C9: the pipeline fails before any I/O on an empty path list, and
if every file before some file ingests while that file cannot be ingested,
the whole run fails with an error naming that file's path — no partial
table or statistics from the already-ingested files is returned. -/
theorem C9_all_or_nothing :
    (load_and_clean_files [] = .error .emptyFileList) ∧
    (∀ (pre : List (Str × DecodeFn)) (path : Str) (dec : DecodeFn)
        (rest : List (Str × DecodeFn)),
      (∀ pd ∈ pre, ∃ f, readFile pd.2 = .ok f) →
      readFile dec = .error encodings →
      load_and_clean_files (pre ++ (path, dec) :: rest) =
        .error (.fileFailed path encodings)) := by
  refine ⟨rfl, ?_⟩
  intro pre path dec rest hpre hfail
  have hne : (pre ++ (path, dec) :: rest).isEmpty = false := by
    simp
  unfold load_and_clean_files
  simp only [hne, Bool.false_eq_true, if_false]
  rw [pipelineGo_error path dec pre rest [] hpre hfail]

/-- Witness for claim C9: a good file followed by an unparseable one makes
the whole run fail with the unparseable file's path. -/
theorem C9_all_or_nothing_witness :
    load_and_clean_files
        [(strL "a.tsv", demoFileA), (strL "broken.csv", brokenDecode)] =
      .error (.fileFailed (strL "broken.csv") encodings) :=
  C9_all_or_nothing.2 [(strL "a.tsv", demoFileA)] (strL "broken.csv")
    brokenDecode []
    (fun pd hpd => by
      simp only [List.mem_singleton] at hpd
      subst hpd
      exact ⟨_, rfl⟩)
    rfl

/-- Claim C10: every row the empty-phone filter passes on has at least one
non-null phone, so on such rows the deduplication step coincides with the
variant without the empty-phone-set drop branch, whose removed count is
exactly the number of rows whose phone set meets the evolving seen set. -/
theorem C10_empty_branch_unreachable :
    (∀ (rows : List CleanRow) (r : CleanRow),
      r ∈ (filterEmptyPhones rows).1 → hasPhone r = true) ∧
    (∀ (rows : List CleanRow) (seen : List Str),
      (∀ r ∈ rows, hasPhone r = true) →
      deduplicate rows seen = dedupNoEmpty rows seen) := by
  constructor
  · intro rows r hr
    exact (List.mem_filter.mp hr).2
  · intro rows
    induction rows with
    | nil => intro seen h; rfl
    | cons r rs ih =>
      intro seen h
      have hr : hasPhone r = true := h r (by simp)
      have hne : (rowPhones r).isEmpty = false := by
        have hrp := rowPhones_ne_nil r hr
        simpa [List.isEmpty_iff] using hrp
      have h' : ∀ x ∈ rs, hasPhone x = true := fun x hx => h x (by simp [hx])
      simp only [deduplicate, dedupNoEmpty, hne, Bool.false_eq_true, if_false]
      rw [ih seen h', ih (seen ++ rowPhones r) h']

/-- Witness for claim C10: on the concrete deduplicated rows (all carrying
a phone) the two deduplication variants agree. -/
theorem C10_empty_branch_unreachable_witness :
    deduplicate demoRows [] = dedupNoEmpty demoRows [] :=
  C10_empty_branch_unreachable.2 demoRows [] (by decide)

end LeadGen
